import Mathlib

/-!
Shallow embedding of `src/fast_api.py`: a per-second video sampling and
event-detection pipeline.  Frames are BGR rasters; the face detector and
the evidence sink (mediapipe / Azure blob upload) are external
collaborators, modelled as function parameters of the pipeline.  Machine
floats of the source are modelled as exact rationals; the `int(...)`
truncation of a positive quotient is `Rat.floor ... |>.toNat`.
-/

/-- String constants used by the source (`head_position` values and the
stringified booleans stored in the result dicts). -/
def strForward : String := "forward"

def strLeft : String := "left"

def strRight : String := "right"

def strAway : String := "away"

def strUnknown : String := "unknown"

def strTrue : String := "true"

def strFalse : String := "false"

/-- A BGR pixel of a decoded frame (8-bit channels modelled as `Nat`). -/
structure Pixel where
  b : Nat
  g : Nat
  r : Nat
  deriving DecidableEq

/-- A decoded raster frame: rows of BGR pixels (height × width × 3). -/
abbrev Frame := List (List Pixel)

/-- Models `cv2.cvtColor(•, COLOR_BGR2GRAY)` on one pixel: OpenCV's fixed-point
luminance `Y = (4899·R + 9617·G + 1868·B + 2^13) >> 14`. -/
def bgr2gray (p : Pixel) : Nat :=
  (1868 * p.b + 9617 * p.g + 4899 * p.r + 8192) / 16384

/-- Grayscale conversion of a whole frame. -/
def grayFrame (f : Frame) : List (List Nat) :=
  f.map (fun row => row.map bgr2gray)

/-- Absolute difference of two naturals (`cv2.absdiff` per pixel):
`(a - b) + (b - a)` in truncated `Nat` subtraction equals `|a - b|`. -/
def natDist (a b : Nat) : Nat := (a - b) + (b - a)

/-- Models `cv2.absdiff` on two single-channel images. -/
def absdiffMat (a b : List (List Nat)) : List (List Nat) :=
  List.zipWith (fun ra rb => List.zipWith natDist ra rb) a b

/-- Total of all entries of a single-channel image. -/
def matSum (m : List (List Nat)) : Nat := (m.map List.sum).sum

/-- Number of entries of a single-channel image. -/
def matCount (m : List (List Nat)) : Nat := (m.map List.length).sum

/-- Models `np.mean` over a single-channel image: sum / count as an exact
rational (an empty image yields `0`, and `0 > 50` is false, matching
`nan > 50 == False` in the source). -/
def matMean (m : List (List Nat)) : ℚ := (matSum m : ℚ) / (matCount m : ℚ)

/-- Models `detect_tab_switch(prev_frame, current_frame, threshold)` from the
source: `False` when either frame is `None`; otherwise grayscale both
frames, take the per-pixel absolute difference, and compare its mean
against the threshold (strictly). -/
def detect_tab_switch (prev_frame current_frame : Option Frame) (threshold : ℚ) : Bool :=
  match prev_frame, current_frame with
  | none, _ => false
  | _, none => false
  | some p, some c =>
    decide (matMean (absdiffMat (grayFrame p) (grayFrame c)) > threshold)

/-- One mediapipe face detection: only the relative bounding box origin
`xmin` is inspected by the pipeline. -/
structure Detection where
  xmin : ℚ
  deriving DecidableEq

/-- Body of the per-detection loop (lines 120-128): classify one
detection's head position from its `bbox.xmin`. -/
def classifyDetection (d : Detection) : String :=
  if d.xmin < (3 : ℚ) / 10 then strLeft
  else if d.xmin > (7 : ℚ) / 10 then strRight
  else strForward

/-- Lines 111-130 of the source: starting from the defaults
`head_position = "unknown"`, `multiple_face_detection = "false"`, either
take the no-detection branch (`"away"`) or set the multi-face flag and
let the per-detection loop overwrite `head_position` (last detection
wins).  Returns `(head_position, multiple_face_detection)`. -/
def fuseFaces (dets : List Detection) : String × String :=
  if dets.isEmpty then (strAway, strFalse)
  else
    (dets.foldl (fun _ d => classifyDetection d) strUnknown,
     if 1 < dets.length then strTrue else strFalse)

/-- The trigger condition of line 134, verbatim:
`head_position == "forward" and (tab_switched or multiple_face_detection == "true") or head_position != "forward"`. -/
def should_capture (head_position : String) (tab_switched : Bool)
    (multiple_face_detection : String) : Bool :=
  (head_position == strForward && (tab_switched || multiple_face_detection == strTrue))
    || head_position != strForward

/-- Models `str(b).lower()` for a Python bool. -/
def boolStr (b : Bool) : String := if b then strTrue else strFalse

/-- One entry of `results_list` (lines 138-144). -/
structure ObservationRecord where
  time : Nat
  head_position : String
  multiple_face_detection : String
  tab_switched : String
  screenshot_url : Option String
  deriving DecidableEq

/-- Python truthiness applied to the url: `azure_url if azure_url else None`
maps `None` and the empty string to `None`. -/
def truthyUrl : Option String → Option String
  | some s => if s.isEmpty then none else some s
  | none => none

/-- The mutable loop state of `analyze_video_stream`: frame counter,
last processed second (sentinel `-1`), previous sampled frame, and the
accumulated `results_list`. -/
structure PipelineState where
  frameCount : Nat
  lastSecond : Int
  prevFrame : Option Frame
  results : List ObservationRecord

/-- Models `int(frame_count / fps)` for the (positive, post-fallback) frame
rate: floor of the exact quotient, as a natural number. -/
def sampleSecond (fps : ℚ) (frame_count : Nat) : Nat :=
  (Rat.floor ((frame_count : ℚ) / fps)).toNat

/-- The body of the new-second branch (lines 104-144): run
`detect_tab_switch` against the previous sampled frame, fuse the face
detections, apply the trigger condition, call the evidence sink if it
fires, and assemble the result dict.  `sink` models
`save_screenshot(frame, timestamp, video_name)` (returning the Azure url
or `None` on failure). -/
def mkRecord (detect : Frame → List Detection)
    (sink : Frame → Nat → String → Option String)
    (video_name : String) (prev_frame : Option Frame) (ts : Nat)
    (frame : Frame) : ObservationRecord :=
  let tab_switched := detect_tab_switch prev_frame (some frame) 50
  let fused := fuseFaces (detect frame)
  let azure_url : Option String :=
    if should_capture fused.1 tab_switched fused.2 then sink frame ts video_name
    else none
  { time := ts
    head_position := fused.1
    multiple_face_detection := fused.2
    tab_switched := boolStr tab_switched
    screenshot_url := truthyUrl azure_url }

/-- One iteration of the frame loop (lines 92-146): increment the frame
counter, compute the frame's second, and either process it (new second:
append a record, update `last_processed_second` and `prev_frame`) or
skip it. -/
def processFrame (detect : Frame → List Detection)
    (sink : Frame → Nat → String → Option String)
    (video_name : String) (fps : ℚ) (st : PipelineState) (frame : Frame) :
    PipelineState :=
  if ((sampleSecond fps (st.frameCount + 1) : Int) > st.lastSecond) then
    { frameCount := st.frameCount + 1
      lastSecond := (sampleSecond fps (st.frameCount + 1) : Int)
      prevFrame := some frame
      results := st.results ++
        [mkRecord detect sink video_name st.prevFrame
          (sampleSecond fps (st.frameCount + 1)) frame] }
  else
    { st with frameCount := st.frameCount + 1 }

/-- A decoded video as seen by the pipeline: the frame sequence in
arrival order, the declared frame rate (`cap.get(CAP_PROP_FPS)`), and
the video name used for blob labelling. -/
structure Video where
  frames : List Frame
  fps : ℚ
  name : String

/-- The loop state before the first frame (lines 81-89):
`frame_count = 0`, `last_processed_second = -1`, `prev_frame = None`,
empty `results_list`. -/
def initState : PipelineState :=
  { frameCount := 0, lastSecond := -1, prevFrame := none, results := [] }

/-- Models `analyze_video_stream(video_path, input_seconds)` (lines 79-149):
substitute the fallback rate 30 when the declared rate is non-positive,
then fold the frame loop over the frames, starting from
`frame_count = 0`, `last_processed_second = -1`, `prev_frame = None`,
empty results.  `input_seconds` is accepted and never used, as in the
source. -/
def analyze_video_stream (detect : Frame → List Detection)
    (sink : Frame → Nat → String → Option String)
    (video : Video) (input_seconds : Nat) : List ObservationRecord :=
  let fps := if video.fps ≤ 0 then (30 : ℚ) else video.fps
  (video.frames.foldl (processFrame detect sink video.name fps) initState).results

/-- The endpoint's result dict: either `{"error": ...}` or
`{"analysis_result": ...}`. -/
inductive ApiResult where
  | apiError : String → ApiResult
  | analysis : List ObservationRecord → ApiResult
  deriving DecidableEq

def errNoUrl : String := "No video URL provided"

def errDownload : String := "Failed to download video from the URL provided"

/-- Models `analyze_video_endpoint(video_url, input_seconds)` (lines 151-167):
reject a falsy (empty) url, try the download (modelled as a function to
`Option Video`), and run the analysis.  -/
def analyze_video_endpoint (download : String → Option Video)
    (detect : Frame → List Detection)
    (sink : Frame → Nat → String → Option String)
    (video_url : String) (input_seconds : Nat) : ApiResult :=
  if video_url.isEmpty then ApiResult.apiError errNoUrl
  else
    match download video_url with
    | none => ApiResult.apiError errDownload
    | some v => ApiResult.analysis (analyze_video_stream detect sink v input_seconds)

/-! ## Concrete fixtures for scenario evaluation -/

/-- A black pixel. -/
def pixel0 : Pixel := ⟨0, 0, 0⟩

/-- A 1×1 black frame. -/
def frame0 : Frame := [[pixel0]]

/-- A face detector stub reporting zero detections on every frame. -/
def detNone : Frame → List Detection := fun _ => []

def urlStub : String := "https://storage.example.invalid/shot.jpg"

/-- An always-succeeding evidence sink stub. -/
def sinkOk : Frame → Nat → String → Option String := fun _ _ _ => some urlStub

/-- An always-failing evidence sink stub. -/
def sinkFail : Frame → Nat → String → Option String := fun _ _ _ => none

/-- The 3-second synthetic stream of the spec's scenario: 90 identical
frames declared at 30 fps. -/
def vid90 : Video := { frames := List.replicate 90 frame0, fps := 30, name := "vid" }

/-- The record the scenario run produces at second `t`. -/
def recAt (t : Nat) : ObservationRecord :=
  { time := t, head_position := strAway, multiple_face_detection := strFalse,
    tab_switched := strFalse, screenshot_url := some urlStub }

/-! ## C1: the trigger policy -/

/-- C1: the trigger condition of line 134 refuses capture exactly on the
single combination (head_position = "forward", tab_switched = false,
multiple_face_detection = "false"), and captures unconditionally for any
non-forward head position; hence it captures in the other 7 of the 8
boolean combinations. -/
theorem trigger_policy_truth_table :
    ∀ (hp : String) (tab mf : Bool),
      (should_capture hp tab (boolStr mf) = false ↔
        (hp = strForward ∧ tab = false ∧ mf = false)) ∧
      (hp ≠ strForward → should_capture hp tab (boolStr mf) = true) := by
  intro hp tab mf
  by_cases h : hp = strForward
  · subst h
    cases tab <;> cases mf <;> refine ⟨?_, ?_⟩ <;> decide
  · have hb : (hp == strForward) = false := beq_eq_false_iff_ne.mpr h
    constructor
    · simp [should_capture, hb, bne, h]
    · intro _
      simp [should_capture, hb, bne]

/-! ## C2: the 3-second synthetic scenario -/

set_option maxRecDepth 100000 in
/-- C2 counterexample: on the spec's scenario (90 identical frames at
30 fps, zero detections everywhere, always-succeeding sink) the pipeline
emits 4 records, not 3: `frame_count` is incremented before the
timestamp computation, so the sampled seconds are 0, 1, 2 and 3 (at
frames 1, 30, 60 and 90). -/
theorem scenario90_not_three_records :
    (analyze_video_stream detNone sinkOk vid90 3).length ≠ 3 := by
  with_unfolding_all decide

set_option maxRecDepth 100000 in
/-- C2 (amended): the scenario yields exactly 4 records, at seconds
0, 1, 2, 3, each with head_position = "away", tab_switched = "false",
each triggering capture and carrying a non-none screenshot url; the
sampled second of each frame is `floor(frame_count / frame_rate)` with
`frame_count` starting at 1 (it is incremented before the bucket is
computed). -/
theorem scenario90_timeline :
    analyze_video_stream detNone sinkOk vid90 3 = [recAt 0, recAt 1, recAt 2, recAt 3] := by
  with_unfolding_all decide

/-! ## Classifier lemmas -/

/-- Each branch of the per-detection classification. -/
theorem classifyDetection_cases (d : Detection) :
    classifyDetection d = strLeft ∨ classifyDetection d = strRight ∨
      classifyDetection d = strForward := by
  unfold classifyDetection
  split
  · exact Or.inl rfl
  split
  · exact Or.inr (Or.inl rfl)
  · exact Or.inr (Or.inr rfl)

/-- The per-detection loop keeps only the classification of the last
detection, whatever the starting value. -/
theorem foldl_last_wins (l : List Detection) (d : Detection) (init : String) :
    (l ++ [d]).foldl (fun _ x => classifyDetection x) init = classifyDetection d := by
  simp [List.foldl_append]

/-- Head position of a nonempty detection list, written as a concat. -/
theorem fuseFaces_concat_fst (l : List Detection) (d : Detection) :
    (fuseFaces (l ++ [d])).1 = classifyDetection d := by
  unfold fuseFaces
  rw [if_neg (by simp)]
  exact foldl_last_wins l d strUnknown

/-- The head position is `"away"` exactly for the empty detection list. -/
theorem fuseFaces_fst_away_iff (dets : List Detection) :
    ((fuseFaces dets).1 = strAway ↔ dets = []) := by
  rcases List.eq_nil_or_concat dets with h | ⟨l, d, rfl⟩
  · subst h
    constructor
    · intro _; rfl
    · intro _; rfl
  · simp only [List.concat_eq_append]
    rw [fuseFaces_concat_fst]
    constructor
    · intro hc
      rcases classifyDetection_cases d with h1 | h1 | h1 <;> rw [h1] at hc <;>
        exact absurd hc (by decide)
    · intro hnil
      exact absurd hnil (by simp)

/-- The head position is never the `"unknown"` initialization value. -/
theorem fuseFaces_fst_ne_unknown (dets : List Detection) :
    (fuseFaces dets).1 ≠ strUnknown := by
  rcases List.eq_nil_or_concat dets with h | ⟨l, d, rfl⟩
  · subst h; decide
  · simp only [List.concat_eq_append]
    rw [fuseFaces_concat_fst]
    rcases classifyDetection_cases d with h1 | h1 | h1 <;> rw [h1] <;> decide

/-- The multi-face flag is `"true"` exactly for two or more detections. -/
theorem fuseFaces_snd_iff (dets : List Detection) :
    ((fuseFaces dets).2 = strTrue ↔ 2 ≤ dets.length) := by
  rcases dets with _ | ⟨d, r⟩
  · decide
  · rw [fuseFaces, if_neg (by simp)]
    show (if 1 < (d :: r).length then strTrue else strFalse) = strTrue ↔
      2 ≤ (d :: r).length
    by_cases h2 : 1 < (d :: r).length
    · rw [if_pos h2]
      constructor
      · intro _; omega
      · intro _; rfl
    · rw [if_neg h2]
      constructor
      · intro hc; exact absurd hc (by decide)
      · intro hc; omega

/-! ## Pipeline fold lemmas -/

/-- Unfolding `processFrame` in the new-second case. -/
theorem processFrame_pos (detect : Frame → List Detection)
    (sink : Frame → Nat → String → Option String)
    (video_name : String) (fps : ℚ) (st : PipelineState) (frame : Frame)
    (h : ((sampleSecond fps (st.frameCount + 1) : Int) > st.lastSecond)) :
    processFrame detect sink video_name fps st frame =
      { frameCount := st.frameCount + 1
        lastSecond := (sampleSecond fps (st.frameCount + 1) : Int)
        prevFrame := some frame
        results := st.results ++
          [mkRecord detect sink video_name st.prevFrame
            (sampleSecond fps (st.frameCount + 1)) frame] } := by
  rw [processFrame, if_pos h]

/-- Unfolding `processFrame` in the skip case. -/
theorem processFrame_neg (detect : Frame → List Detection)
    (sink : Frame → Nat → String → Option String)
    (video_name : String) (fps : ℚ) (st : PipelineState) (frame : Frame)
    (h : ¬ ((sampleSecond fps (st.frameCount + 1) : Int) > st.lastSecond)) :
    processFrame detect sink video_name fps st frame =
      { st with frameCount := st.frameCount + 1 } := by
  rw [processFrame, if_neg h]

/-- The fold only ever appends records to the accumulated list. -/
theorem foldl_results_extend (detect : Frame → List Detection)
    (sink : Frame → Nat → String → Option String)
    (video_name : String) (fps : ℚ) (frames : List Frame) :
    ∀ st : PipelineState, ∃ l,
      (frames.foldl (processFrame detect sink video_name fps) st).results
        = st.results ++ l := by
  induction frames with
  | nil => intro st; exact ⟨[], by simp⟩
  | cons f fs ih =>
    intro st
    obtain ⟨l, hl⟩ := ih (processFrame detect sink video_name fps st f)
    by_cases h : ((sampleSecond fps (st.frameCount + 1) : Int) > st.lastSecond)
    · refine ⟨mkRecord detect sink video_name st.prevFrame
        (sampleSecond fps (st.frameCount + 1)) f :: l, ?_⟩
      rw [List.foldl_cons, hl, processFrame_pos detect sink video_name fps st f h]
      simp
    · refine ⟨l, ?_⟩
      rw [List.foldl_cons, hl, processFrame_neg detect sink video_name fps st f h]

/-- Every record the fold adds was assembled by `mkRecord` from a frame
of the input list. -/
theorem foldl_results_mem (detect : Frame → List Detection)
    (sink : Frame → Nat → String → Option String)
    (video_name : String) (fps : ℚ) (frames : List Frame) :
    ∀ (st : PipelineState) (r : ObservationRecord),
      r ∈ (frames.foldl (processFrame detect sink video_name fps) st).results →
      r ∈ st.results ∨ ∃ prev ts f, f ∈ frames ∧
        r = mkRecord detect sink video_name prev ts f := by
  induction frames with
  | nil => intro st r hr; exact Or.inl hr
  | cons f fs ih =>
    intro st r hr
    rw [List.foldl_cons] at hr
    rcases ih (processFrame detect sink video_name fps st f) r hr with
      h1 | ⟨prev, ts, f', hf', rfl⟩
    · by_cases h : ((sampleSecond fps (st.frameCount + 1) : Int) > st.lastSecond)
      · rw [processFrame_pos detect sink video_name fps st f h] at h1
        simp only [List.mem_append, List.mem_singleton] at h1
        rcases h1 with h1 | rfl
        · exact Or.inl h1
        · exact Or.inr ⟨st.prevFrame, sampleSecond fps (st.frameCount + 1), f,
            List.mem_cons_self f fs, rfl⟩
      · rw [processFrame_neg detect sink video_name fps st f h] at h1
        exact Or.inl h1
    · exact Or.inr ⟨prev, ts, f', List.mem_cons_of_mem f hf', rfl⟩

/-- The fold preserves the invariant that every accumulated record's
time is bounded by `last_processed_second`, and that the accumulated
time sequence is strictly increasing. -/
theorem foldl_times_invariant (detect : Frame → List Detection)
    (sink : Frame → Nat → String → Option String)
    (video_name : String) (fps : ℚ) (frames : List Frame) :
    ∀ st : PipelineState,
      (∀ r ∈ st.results, (r.time : Int) ≤ st.lastSecond) →
      List.Chain' (fun a b => a < b) (st.results.map (fun r => r.time)) →
      (∀ r ∈ (frames.foldl (processFrame detect sink video_name fps) st).results,
          (r.time : Int) ≤
            (frames.foldl (processFrame detect sink video_name fps) st).lastSecond) ∧
      List.Chain' (fun a b => a < b)
        (((frames.foldl (processFrame detect sink video_name fps) st).results).map
          (fun r => r.time)) := by
  induction frames with
  | nil => intro st h1 h2; exact ⟨h1, h2⟩
  | cons f fs ih =>
    intro st h1 h2
    rw [List.foldl_cons]
    by_cases h : ((sampleSecond fps (st.frameCount + 1) : Int) > st.lastSecond)
    · rw [processFrame_pos detect sink video_name fps st f h]
      apply ih
      · intro r hr
        simp only [List.mem_append, List.mem_singleton] at hr
        rcases hr with hr | rfl
        · exact le_trans (h1 r hr) (le_of_lt h)
        · exact le_refl _
      · simp only [List.map_append, List.map_cons, List.map_nil]
        rw [List.chain'_append]
        refine ⟨h2, List.chain'_singleton _, ?_⟩
        intro x hx y hy
        simp only [List.head?_cons, Option.mem_def, Option.some.injEq] at hy
        subst hy
        obtain ⟨hne, rfl⟩ := List.mem_getLast?_eq_getLast hx
        obtain ⟨r, hr, hxr⟩ := List.mem_map.mp (List.getLast_mem hne)
        have hle : (r.time : Int) ≤ st.lastSecond := h1 r hr
        have hlt : (r.time : Int) < (sampleSecond fps (st.frameCount + 1) : Int) :=
          lt_of_le_of_lt hle h
        rw [← hxr]
        -- the record's time is definitionally the sampled second
        exact_mod_cast hlt
    · rw [processFrame_neg detect sink video_name fps st f h]
      exact ih { st with frameCount := st.frameCount + 1 } h1 h2

/-- A one-frame video used to instantiate the universally quantified
claims at a concrete input. -/
def vid1 : Video := { frames := [frame0], fps := 30, name := "v1" }

/-! ## C3: time sequence invariants -/

/-- C3: for every run, the sequence of `time` values of the emitted
timeline, in append order, is strictly increasing, and hence no two
records share the same `time`; each `time` is a natural number, so
every value is a non-negative integer. -/
theorem timeline_times_strictly_increasing (detect : Frame → List Detection)
    (sink : Frame → Nat → String → Option String)
    (video : Video) (input_seconds : Nat) :
    List.Chain' (fun a b => a < b)
      ((analyze_video_stream detect sink video input_seconds).map (fun r => r.time)) ∧
    List.Pairwise (fun a b => a ≠ b)
      ((analyze_video_stream detect sink video input_seconds).map (fun r => r.time)) := by
  have h := foldl_times_invariant detect sink video.name
    (if video.fps ≤ 0 then (30 : ℚ) else video.fps) video.frames initState
    (by intro r hr; cases hr) (by simp [initState])
  have hchain : List.Chain' (fun a b => a < b)
      ((analyze_video_stream detect sink video input_seconds).map (fun r => r.time)) := h.2
  refine ⟨hchain, ?_⟩
  exact (List.chain'_iff_pairwise.mp hchain).imp (fun hlt => Nat.ne_of_lt hlt)

/-- C3 at a concrete input. -/
theorem timeline_times_strictly_increasing_witness :
    List.Chain' (fun a b => a < b)
      ((analyze_video_stream detNone sinkOk vid90 3).map (fun r => r.time)) ∧
    List.Pairwise (fun a b => a ≠ b)
      ((analyze_video_stream detNone sinkOk vid90 3).map (fun r => r.time)) :=
  timeline_times_strictly_increasing detNone sinkOk vid90 3

/-! ## C4: head position away iff no detections, unknown unreachable -/

/-- C4: every emitted record's head position differs from `"unknown"`,
and is `"away"` exactly when the face detector reported zero detections
on the frame the record was sampled from: the existential frame `f` is
tied to the record by `r = mkRecord detect sink video.name prev ts f`,
i.e. `r` is exactly the record the new-second branch assembled from
`f`. -/
theorem away_iff_no_detections (detect : Frame → List Detection)
    (sink : Frame → Nat → String → Option String)
    (video : Video) (input_seconds : Nat) (r : ObservationRecord)
    (hr : r ∈ analyze_video_stream detect sink video input_seconds) :
    r.head_position ≠ strUnknown ∧
    ∃ prev ts f, f ∈ video.frames ∧
      r = mkRecord detect sink video.name prev ts f ∧
      (r.head_position = strAway ↔ detect f = []) := by
  have hr' : r ∈ (video.frames.foldl
      (processFrame detect sink video.name
        (if video.fps ≤ 0 then (30 : ℚ) else video.fps)) initState).results := hr
  rcases foldl_results_mem detect sink video.name
      (if video.fps ≤ 0 then (30 : ℚ) else video.fps) video.frames initState r hr' with
    h | ⟨prev, ts, f, hf, rfl⟩
  · cases h
  · constructor
    · show (fuseFaces (detect f)).1 ≠ strUnknown
      exact fuseFaces_fst_ne_unknown _
    · refine ⟨prev, ts, f, hf, rfl, ?_⟩
      show ((fuseFaces (detect f)).1 = strAway ↔ detect f = [])
      exact fuseFaces_fst_away_iff _

/-- C4 at a concrete input (one-frame video, zero detections). -/
theorem away_iff_no_detections_witness :
    (recAt 0 ∈ analyze_video_stream detNone sinkOk vid1 7) ∧
    ((recAt 0).head_position ≠ strUnknown ∧
      ∃ prev ts f, f ∈ vid1.frames ∧
        recAt 0 = mkRecord detNone sinkOk vid1.name prev ts f ∧
        ((recAt 0).head_position = strAway ↔ detNone f = [])) := by
  have hm : recAt 0 ∈ analyze_video_stream detNone sinkOk vid1 7 := by
    with_unfolding_all decide
  exact ⟨hm, away_iff_no_detections detNone sinkOk vid1 7 (recAt 0) hm⟩

/-! ## C8: multi-face flag iff at least two detections -/

/-- C8: every emitted record's multi-face flag is `"true"` exactly when
the face detector reported two or more detections on the frame the
record was sampled from: the existential frame `f` is tied to the
record by `r = mkRecord detect sink video.name prev ts f`, i.e. `r` is
exactly the record the new-second branch assembled from `f`. -/
theorem multiple_faces_iff_two_detections (detect : Frame → List Detection)
    (sink : Frame → Nat → String → Option String)
    (video : Video) (input_seconds : Nat) (r : ObservationRecord)
    (hr : r ∈ analyze_video_stream detect sink video input_seconds) :
    ∃ prev ts f, f ∈ video.frames ∧
      r = mkRecord detect sink video.name prev ts f ∧
      (r.multiple_face_detection = strTrue ↔ 2 ≤ (detect f).length) := by
  have hr' : r ∈ (video.frames.foldl
      (processFrame detect sink video.name
        (if video.fps ≤ 0 then (30 : ℚ) else video.fps)) initState).results := hr
  rcases foldl_results_mem detect sink video.name
      (if video.fps ≤ 0 then (30 : ℚ) else video.fps) video.frames initState r hr' with
    h | ⟨prev, ts, f, hf, rfl⟩
  · cases h
  · refine ⟨prev, ts, f, hf, rfl, ?_⟩
    show ((fuseFaces (detect f)).2 = strTrue ↔ 2 ≤ (detect f).length)
    exact fuseFaces_snd_iff _

/-- C8 at a concrete input. -/
theorem multiple_faces_iff_two_detections_witness :
    (recAt 0 ∈ analyze_video_stream detNone sinkOk vid1 8) ∧
    ∃ prev ts f, f ∈ vid1.frames ∧
      recAt 0 = mkRecord detNone sinkOk vid1.name prev ts f ∧
      ((recAt 0).multiple_face_detection = strTrue ↔ 2 ≤ (detNone f).length) := by
  have hm : recAt 0 ∈ analyze_video_stream detNone sinkOk vid1 8 := by
    with_unfolding_all decide
  exact ⟨hm, multiple_faces_iff_two_detections detNone sinkOk vid1 8 (recAt 0) hm⟩

/-! ## C5: the first record never reports a tab switch -/

/-- C5: if the run emits any record, the first one has
`tab_switched = "false"`: the previous-frame slot is `None` before the
first sampled second and `detect_tab_switch` returns false on a `None`
baseline. -/
theorem first_record_tab_switched_false (detect : Frame → List Detection)
    (sink : Frame → Nat → String → Option String)
    (video : Video) (input_seconds : Nat) (r : ObservationRecord)
    (h : (analyze_video_stream detect sink video input_seconds).head? = some r) :
    r.tab_switched = strFalse := by
  have key : analyze_video_stream detect sink video input_seconds =
      (video.frames.foldl (processFrame detect sink video.name
        (if video.fps ≤ 0 then (30 : ℚ) else video.fps)) initState).results := rfl
  rcases hv : video.frames with _ | ⟨f, fs⟩
  · rw [key, hv] at h
    simp [initState] at h
  · rw [key, hv, List.foldl_cons] at h
    obtain ⟨l, hl⟩ := foldl_results_extend detect sink video.name
      (if video.fps ≤ 0 then (30 : ℚ) else video.fps) fs
      (processFrame detect sink video.name
        (if video.fps ≤ 0 then (30 : ℚ) else video.fps) initState f)
    rw [hl] at h
    have hpos : ((sampleSecond (if video.fps ≤ 0 then (30 : ℚ) else video.fps)
        (initState.frameCount + 1) : Int) > initState.lastSecond) := by
      have := Int.natCast_nonneg (sampleSecond
        (if video.fps ≤ 0 then (30 : ℚ) else video.fps) (initState.frameCount + 1))
      show _ > (-1 : Int)
      omega
    rw [processFrame_pos detect sink video.name
      (if video.fps ≤ 0 then (30 : ℚ) else video.fps) initState f hpos] at h
    simp only [initState, List.nil_append, List.singleton_append, List.head?_cons,
      Option.some.injEq] at h
    subst h
    rfl

/-- C5 at a concrete input. -/
theorem first_record_tab_switched_false_witness :
    ((analyze_video_stream detNone sinkOk vid1 9).head? = some (recAt 0)) ∧
    (recAt 0).tab_switched = strFalse := by
  have hm : (analyze_video_stream detNone sinkOk vid1 9).head? = some (recAt 0) := by
    with_unfolding_all decide
  exact ⟨hm, first_record_tab_switched_false detNone sinkOk vid1 9 (recAt 0) hm⟩

/-! ## C7: evidence-persistence failure degrades urls only -/

/-- Replace a record's screenshot url by `none`, all else unchanged. -/
def eraseUrl (r : ObservationRecord) : ObservationRecord :=
  { r with screenshot_url := none }

/-- With an always-failing sink the assembled record is the
url-erasure of the record any other sink produces. -/
theorem mkRecord_sinkFail (detect : Frame → List Detection)
    (sink : Frame → Nat → String → Option String)
    (video_name : String) (prev_frame : Option Frame) (ts : Nat) (frame : Frame) :
    mkRecord detect (fun _ _ _ => none) video_name prev_frame ts frame =
      eraseUrl (mkRecord detect sink video_name prev_frame ts frame) := by
  by_cases hc : should_capture (fuseFaces (detect frame)).1
      (detect_tab_switch prev_frame (some frame) 50) (fuseFaces (detect frame)).2
  · simp [mkRecord, eraseUrl, truthyUrl, hc]
  · simp [mkRecord, eraseUrl, truthyUrl, hc]

/-- Two-run lemma: the fold with a failing sink tracks the fold with any
sink exactly, except that every accumulated url is erased. -/
theorem foldl_sinkFail (detect : Frame → List Detection)
    (sink : Frame → Nat → String → Option String)
    (video_name : String) (fps : ℚ) (frames : List Frame) :
    ∀ st1 st2 : PipelineState,
      st1.frameCount = st2.frameCount →
      st1.lastSecond = st2.lastSecond →
      st1.prevFrame = st2.prevFrame →
      st1.results = st2.results.map eraseUrl →
      (frames.foldl (processFrame detect (fun _ _ _ => none) video_name fps) st1).frameCount
        = (frames.foldl (processFrame detect sink video_name fps) st2).frameCount ∧
      (frames.foldl (processFrame detect (fun _ _ _ => none) video_name fps) st1).lastSecond
        = (frames.foldl (processFrame detect sink video_name fps) st2).lastSecond ∧
      (frames.foldl (processFrame detect (fun _ _ _ => none) video_name fps) st1).prevFrame
        = (frames.foldl (processFrame detect sink video_name fps) st2).prevFrame ∧
      (frames.foldl (processFrame detect (fun _ _ _ => none) video_name fps) st1).results
        = ((frames.foldl (processFrame detect sink video_name fps) st2).results).map
            eraseUrl := by
  induction frames with
  | nil => intro st1 st2 h1 h2 h3 h4; exact ⟨h1, h2, h3, h4⟩
  | cons f fs ih =>
    intro st1 st2 h1 h2 h3 h4
    rw [List.foldl_cons, List.foldl_cons]
    apply ih
    all_goals {
      by_cases h : ((sampleSecond fps (st2.frameCount + 1) : Int) > st2.lastSecond)
      · rw [processFrame_pos detect (fun _ _ _ => none) video_name fps st1 f
            (by rw [h1, h2]; exact h),
          processFrame_pos detect sink video_name fps st2 f h]
        all_goals simp [h1, h2, h3, h4, List.map_append, mkRecord_sinkFail detect sink]
      · rw [processFrame_neg detect (fun _ _ _ => none) video_name fps st1 f
            (by rw [h1, h2]; exact h),
          processFrame_neg detect sink video_name fps st2 f h]
        all_goals simp [h1, h2, h3, h4]
    }

/-- C7: a run whose every evidence-persistence attempt fails produces
the same timeline as the same run with any other sink, except that every
screenshot url is degraded to `none`; in particular no record is dropped
(the lengths agree) and the run completes (the pipeline is a total
function). -/
theorem failing_sink_never_drops_records (detect : Frame → List Detection)
    (sink : Frame → Nat → String → Option String)
    (video : Video) (input_seconds : Nat) :
    analyze_video_stream detect (fun _ _ _ => none) video input_seconds =
      (analyze_video_stream detect sink video input_seconds).map eraseUrl ∧
    (analyze_video_stream detect (fun _ _ _ => none) video input_seconds).length =
      (analyze_video_stream detect sink video input_seconds).length := by
  have h := foldl_sinkFail detect sink video.name
    (if video.fps ≤ 0 then (30 : ℚ) else video.fps) video.frames initState initState
    rfl rfl rfl (by simp [initState])
  refine ⟨h.2.2.2, ?_⟩
  have he : analyze_video_stream detect (fun _ _ _ => none) video input_seconds =
      (analyze_video_stream detect sink video input_seconds).map eraseUrl := h.2.2.2
  rw [he, List.length_map]

/-- C7 at a concrete input. -/
theorem failing_sink_never_drops_records_witness :
    (analyze_video_stream detNone (fun _ _ _ => none) vid90 3 =
      (analyze_video_stream detNone sinkOk vid90 3).map eraseUrl) ∧
    (analyze_video_stream detNone (fun _ _ _ => none) vid90 3).length =
      (analyze_video_stream detNone sinkOk vid90 3).length :=
  failing_sink_never_drops_records detNone sinkOk vid90 3

/-! ## C9: last detection wins -/

/-- C9: for a nonempty detection list (written `l ++ [d]`, `d` the last
detection in iteration order) the fused head position depends only on
`d`: left when `xmin < 0.3`, right when `xmin > 0.7`, else forward —
whatever the earlier detections `l` were. -/
theorem last_detection_wins (l : List Detection) (d : Detection) :
    (fuseFaces (l ++ [d])).1 =
      (if d.xmin < (3 : ℚ) / 10 then strLeft
       else if d.xmin > (7 : ℚ) / 10 then strRight
       else strForward) := by
  rw [fuseFaces_concat_fst]
  rfl

/-- C9 at a concrete input: one earlier forward-looking detection, last
detection far left — the record classifies left. -/
theorem last_detection_wins_witness :
    (fuseFaces ([⟨(1 : ℚ) / 2⟩] ++ [⟨(1 : ℚ) / 10⟩])).1 =
      (if ((1 : ℚ) / 10) < (3 : ℚ) / 10 then strLeft
       else if ((1 : ℚ) / 10) > (7 : ℚ) / 10 then strRight
       else strForward) :=
  last_detection_wins [⟨(1 : ℚ) / 2⟩] ⟨(1 : ℚ) / 10⟩

/-! ## C10: the duration hint does not influence the analysis -/

/-- C10: the analysis result is identical for any two values of the
`input_seconds` duration hint, both at the pipeline and at the endpoint
level: the parameter is accepted and never read. -/
theorem input_seconds_noninterference (download : String → Option Video)
    (detect : Frame → List Detection)
    (sink : Frame → Nat → String → Option String)
    (video : Video) (video_url : String) (s1 s2 : Nat) :
    analyze_video_stream detect sink video s1 =
      analyze_video_stream detect sink video s2 ∧
    analyze_video_endpoint download detect sink video_url s1 =
      analyze_video_endpoint download detect sink video_url s2 :=
  ⟨rfl, rfl⟩

/-! ## C6: the scene-change detector -/

/-- Number of pixels of a frame. -/
def numPixels (f : Frame) : Nat := (f.map List.length).sum

/-- For any pixel, a pixel whose luminance is far away: white below
mid-gray, black otherwise. -/
def flipPixel (px : Pixel) : Pixel :=
  if bgr2gray px < 128 then ⟨255, 255, 255⟩ else ⟨0, 0, 0⟩

/-- Per-pixel luminance flip of a whole frame. -/
def flipFrame (f : Frame) : Frame := f.map (fun row => row.map flipPixel)

/-- Flipping a pixel moves its luminance by at least 128. -/
theorem flipPixel_dist (px : Pixel) :
    128 ≤ natDist (bgr2gray px) (bgr2gray (flipPixel px)) := by
  unfold flipPixel
  by_cases h : bgr2gray px < 128
  · rw [if_pos h]
    have h255 : bgr2gray ⟨255, 255, 255⟩ = 255 := by decide
    rw [h255]
    unfold natDist
    omega
  · rw [if_neg h]
    have h0 : bgr2gray ⟨0, 0, 0⟩ = 0 := by decide
    rw [h0]
    unfold natDist
    omega

/-- The absolute difference image of a frame against its flip, written
as a per-pixel map. -/
theorem absdiff_flip (p : Frame) :
    absdiffMat (grayFrame p) (grayFrame (flipFrame p)) =
      p.map (fun row => row.map
        (fun px => natDist (bgr2gray px) (bgr2gray (flipPixel px)))) := by
  unfold absdiffMat grayFrame flipFrame
  rw [List.map_map, List.zipWith_map, List.zipWith_same]
  apply List.map_congr_left
  intro row _
  simp only [Function.comp]
  rw [List.map_map, List.zipWith_map, List.zipWith_same]
  apply List.map_congr_left
  intro px _
  simp [Function.comp]

/-- A list of entries all at least `c` sums to at least `c` times its
length. -/
theorem sum_ge_of_forall_ge (c : Nat) (l : List Nat) (h : ∀ x ∈ l, c ≤ x) :
    c * l.length ≤ l.sum := by
  induction l with
  | nil => simp
  | cons a t ih =>
    have ha := h a (List.mem_cons_self a t)
    have ht := ih (fun x hx => h x (List.mem_cons_of_mem a hx))
    simp only [List.length_cons, List.sum_cons]
    calc c * (t.length + 1) = c * t.length + c := by ring
    _ ≤ a + t.sum := by omega

/-- Matrix version of `sum_ge_of_forall_ge`. -/
theorem matSum_ge_of_forall_ge (c : Nat) (m : List (List Nat))
    (h : ∀ row ∈ m, ∀ x ∈ row, c ≤ x) : c * matCount m ≤ matSum m := by
  induction m with
  | nil => simp [matCount, matSum]
  | cons row t ih =>
    have h1 := sum_ge_of_forall_ge c row (h row (List.mem_cons_self row t))
    have h2 := ih (fun r hr x hx => h r (List.mem_cons_of_mem row hr) x hx)
    simp only [matCount, matSum, List.map_cons, List.sum_cons] at *
    rw [Nat.mul_add]
    exact Nat.add_le_add h1 h2

/-- The flip-difference image has exactly one entry per pixel of `p`. -/
theorem matCount_flip (p : Frame) :
    matCount (p.map (fun row => row.map
      (fun px => natDist (bgr2gray px) (bgr2gray (flipPixel px))))) = numPixels p := by
  unfold matCount numPixels
  rw [List.map_map]
  simp [Function.comp_def, List.length_map]

/-- C6: the scene-change detector (i) returns false whenever the
previous frame is none, whatever the current frame; (ii) on two present
frames returns true exactly when the arithmetic mean of the per-pixel
absolute luminance difference strictly exceeds the threshold 50; and
(iii) a none previous frame is the only such guaranteed-false state: for
any present previous frame (a raster with at least one pixel) some
current frame makes it return true. -/
theorem scene_change_detector_spec (p : Frame) (hp : 0 < numPixels p) :
    (∀ c, detect_tab_switch none c 50 = false) ∧
    (∀ q c, (detect_tab_switch (some q) (some c) 50 = true ↔
      matMean (absdiffMat (grayFrame q) (grayFrame c)) > 50)) ∧
    (∃ c, detect_tab_switch (some p) (some c) 50 = true) := by
  refine ⟨fun c => by cases c <;> rfl, fun q c => by simp [detect_tab_switch], ?_⟩
  refine ⟨flipFrame p, ?_⟩
  show decide (matMean (absdiffMat (grayFrame p) (grayFrame (flipFrame p))) > 50) = true
  rw [decide_eq_true_iff]
  rw [absdiff_flip]
  have hcnt := matCount_flip p
  have hsum := matSum_ge_of_forall_ge 128
    (p.map (fun row => row.map
      (fun px => natDist (bgr2gray px) (bgr2gray (flipPixel px)))))
    (by
      intro row hrow x hx
      simp only [List.mem_map] at hrow
      obtain ⟨row0, _, rfl⟩ := hrow
      simp only [List.mem_map] at hx
      obtain ⟨px, _, rfl⟩ := hx
      exact flipPixel_dist px)
  unfold matMean
  rw [gt_iff_lt, lt_div_iff₀]
  · have hpos : (0 : ℚ) < (matCount (p.map (fun row => row.map
        (fun px => natDist (bgr2gray px) (bgr2gray (flipPixel px))))) : ℚ) := by
      rw [hcnt]
      exact_mod_cast hp
    have h2 : ((128 : ℚ)) * (matCount (p.map (fun row => row.map
        (fun px => natDist (bgr2gray px) (bgr2gray (flipPixel px))))) : ℚ) ≤
        (matSum (p.map (fun row => row.map
          (fun px => natDist (bgr2gray px) (bgr2gray (flipPixel px))))) : ℚ) := by
      exact_mod_cast hsum
    nlinarith
  · rw [hcnt]
    exact_mod_cast hp

/-- C6 at a concrete input: a one-pixel raster. -/
theorem scene_change_detector_spec_witness :
    (0 < numPixels frame0) ∧
    ((∀ c, detect_tab_switch none c 50 = false) ∧
     (∀ q c, (detect_tab_switch (some q) (some c) 50 = true ↔
       matMean (absdiffMat (grayFrame q) (grayFrame c)) > 50)) ∧
     (∃ c, detect_tab_switch (some frame0) (some c) 50 = true)) := by
  have h : 0 < numPixels frame0 := by decide
  exact ⟨h, scene_change_detector_spec frame0 h⟩
